import Mathlib

/-!
A shallow embedding of the pysforce Salesforce client library
(pysforce/auth.py and pysforce/sfapi.py) together with proofs about its
documented behavior: the authentication strategies and their session state,
the `managed` reauthenticate-and-retry wrapper, the batched CRUD operations,
the schema (describe) cache, the paginated query generator, and the
single-record fetch.

Machine-level conventions of the embedding: Python exceptions become an
explicit error type threaded through `Except`; HTTP traffic is represented by
server behaviors (functions from request data to responses) plus an explicit
trace of network events; JSON bodies are modelled already parsed (the
`json.loads` step is the identity on well-formed responses); mutable Python
attribute state becomes explicit state passing.
-/

namespace PySforce

/-- Python exception values raised by the embedded code. -/
inductive PyErr where
  | exception (msg : String)
  | keyError (key : String)
  | typeError (msg : String)
  | httpError (status : Nat)
  | valueError (msg : String)
  deriving DecidableEq, Repr

instance {ε α : Type} [DecidableEq ε] [DecidableEq α] : DecidableEq (Except ε α) :=
  fun a b =>
    match a, b with
    | .ok x, .ok y =>
      if h : x = y then isTrue (by rw [h]) else isFalse (by intro hc; cases hc; exact h rfl)
    | .error x, .error y =>
      if h : x = y then isTrue (by rw [h]) else isFalse (by intro hc; cases hc; exact h rfl)
    | .ok _, .error _ => isFalse (by intro hc; cases hc)
    | .error _, .ok _ => isFalse (by intro hc; cases hc)

/-- Python `str.lower()` (the library only ever lowercases ASCII sobject and
field names, for which `Char.toLower` agrees with Python). -/
def pyLower (s : String) : String := String.mk (s.data.map Char.toLower)

/-!
## Authenticator model (auth.py)
-/

/-- The default headers installed on the `requests.Session` by
`SFAuthenticator.construct` (auth.py lines 29-32). -/
def defaultHeaders (token : String) : List (String × String) :=
  [("Authorization", "OAuth " ++ token),
   ("Content-Type", "application/json; charset=UTF-8"),
   ("Accept-Encoding", "gzip, compress, deflate"),
   ("Accept-Charset", "utf-8")]

/-- The mutable fields of `SFAuthenticator` (auth.py lines 17-21).  `client`
is the `requests.Session` transport handle, represented by the default headers
it carries once constructed. -/
structure AuthState where
  access_token : Option String
  service_url : Option String
  client : Option (List (String × String))
  authenticated : Bool
  deriving DecidableEq, Repr

/-- `SFAuthenticator.__init__` (auth.py lines 17-21). -/
def SFAuthenticatorInit : AuthState :=
  { access_token := none, service_url := none, client := none, authenticated := false }

/-- `SFAuthenticator.is_authenticated` (auth.py lines 23-24). -/
def is_authenticated (st : AuthState) : Bool := st.authenticated

/-- A token-endpoint HTTP response: status code plus the JSON body parsed into
a string-to-string dictionary (every field auth.py reads is a string). -/
structure TokenResponse where
  status : Nat
  body : List (String × String)
  deriving DecidableEq, Repr

/-- Python `key in dict`. -/
def hasKey (d : List (String × String)) (k : String) : Bool :=
  (d.find? (fun p => p.1 == k)).isSome

/-- Python `dict[key]`: the value, or a `KeyError`. -/
def dictGet (d : List (String × String)) (k : String) : Except PyErr String :=
  match d.find? (fun p => p.1 == k) with
  | some p => .ok p.2
  | none => .error (.keyError k)

/-- `requests.Response.raise_for_status`: raises for 4xx and 5xx statuses. -/
def raiseForStatus (status : Nat) : Except PyErr Unit :=
  if 400 ≤ status ∧ status < 600 then .error (.httpError status) else .ok ()

/-- `SFAuthenticator.construct` (auth.py lines 26-32): three sequential
assignments; a dict subscript on a missing key raises `KeyError` after the
earlier assignments have already taken effect. -/
def construct (st : AuthState) (payload : List (String × String)) :
    AuthState × Except PyErr Unit :=
  match dictGet payload "access_token" with
  | .error e => (st, .error e)
  | .ok tok =>
    let st1 := { st with access_token := some tok }
    match dictGet payload "instance_url" with
    | .error e => (st1, .error e)
    | .ok url =>
      ({ st1 with service_url := some url, client := some (defaultHeaders tok) }, .ok ())

/-- `OAuthJWT.authenticate` (auth.py lines 44-60) as a function of the token
endpoint's response (the JWT assertion build and the POST are the I/O that
produces `rsp`).  Returns the call's outcome and the state after it: an
`error` field in the body raises with the provider's description; otherwise a
4xx/5xx raises; otherwise `_authenticated` is set and `construct` runs. -/
def OAuthJWTauthenticate (st : AuthState) (rsp : TokenResponse) :
    Except PyErr Unit × AuthState :=
  if hasKey rsp.body "error" then
    match dictGet rsp.body "error_description" with
    | .error e => (.error e, st)
    | .ok desc => (.error (.exception desc), st)
  else
    match raiseForStatus rsp.status with
    | .error e => (.error e, st)
    | .ok _ =>
      let st1 := { st with authenticated := true }
      let r := construct st1 rsp.body
      (r.2, r.1)

/-- `OAuthPassword.authenticate` (auth.py lines 79-93): identical error branch
and status check, but line 92 executes `super._authenticated = True` — an
attribute assignment on the builtin `super` type itself, which raises
`TypeError` in Python — so on a success-shaped response the method raises
before `construct` is ever reached and the state is left untouched. -/
def OAuthPasswordAuthenticate (st : AuthState) (rsp : TokenResponse) :
    Except PyErr Unit × AuthState :=
  if hasKey rsp.body "error" then
    match dictGet rsp.body "error_description" with
    | .error e => (.error e, st)
    | .ok desc => (.error (.exception desc), st)
  else
    match raiseForStatus rsp.status with
    | .error e => (.error e, st)
    | .ok _ =>
      (.error (.typeError "cannot set attributes of immutable builtin type super"), st)

/-- The session invariant documented in the spec: `authenticated == true` iff
`access_token` and `service_url` are both set. -/
def sessionInvariant (st : AuthState) : Prop :=
  st.authenticated = true ↔ (st.access_token ≠ none ∧ st.service_url ≠ none)

instance (st : AuthState) : Decidable (sessionInvariant st) := by
  unfold sessionInvariant
  infer_instance

/-!
## The resilient call wrapper and the client operations (sfapi.py)
-/

/-- One externally observable network event: the token-endpoint POST performed
by `authenticate()`, or a data-plane request made through the session. -/
inductive NetEvent where
  | tokenPost
  | get (url : String)
  | post (url : String)
  | patch (url : String)
  deriving DecidableEq, Repr

/-- The behavior of `self._auth.authenticate()` as the `managed` wrapper sees
it: either it raises, or it returns and `is_authenticated()` reports the
boolean. -/
abbrev AuthOutcome := Except PyErr Bool

/-- The `managed` decorator (sfapi.py lines 20-31).  The wrapped operation is
indexed by its invocation number — each invocation reports its outcome and the
network events it emitted — because a network-facing call can behave
differently on the retry.  `authenticate()` always performs its token POST
before reporting its outcome.  Returns the final outcome, the full event
trace, and how many times the wrapped operation was invoked. -/
def managed {α : Type} (auth : AuthOutcome)
    (op : Nat → Except PyErr α × List NetEvent) :
    Except PyErr α × List NetEvent × Nat :=
  match op 0 with
  | (.ok v, t) => (.ok v, t, 1)
  | (.error e, t) =>
    match auth with
    | .error ae => (.error ae, t ++ [.tokenPost], 1)
    | .ok false => (.error e, t ++ [.tokenPost], 1)
    | .ok true =>
      let r := op 1
      (r.1, t ++ [.tokenPost] ++ r.2, 2)

/-- Modelled from the spec: `SF_API_VERSION`, which sfapi.py imports from the
package root (`pysforce/__init__.py`, absent from src).  The spec fixes only
that data-plane URLs embed it as `v{API_VERSION}`; its value is immaterial to
every claim, so an arbitrary concrete version is used. -/
def SF_API_VERSION : String := "47.0"

/-- The data-plane URL prefix used by `_http_get` and friends. -/
def dataUrl (serviceUrl resource : String) : String :=
  serviceUrl ++ "/services/data/v" ++ SF_API_VERSION ++ "/" ++ resource

/-- Parsed JSON values, for response bodies and record dictionaries. -/
inductive JVal where
  | str (s : String)
  | num (n : Int)
  | bool (b : Bool)
  | null
  | arr (elems : List JVal)
  | obj (fields : List (String × JVal))

/-- A Python dictionary with JSON values. -/
abbrev PyDict := List (String × JVal)

/-- The GET behavior of the data-plane server: status and parsed body as a
function of the full URL and the query parameters. -/
structure GetServer where
  status : String → List (String × String) → Nat
  body : String → List (String × String) → JVal

/-- The body of `SFClient._http_get` (sfapi.py lines 376-385) before the
`managed` wrapper: build the data URL, GET it, return `None` on a 404, raise
on any other non-success status, and otherwise return the parsed JSON body. -/
def httpGetInner (srv : GetServer) (serviceUrl resource : String)
    (url_params : List (String × String)) :
    Except PyErr (Option JVal) × List NetEvent :=
  if srv.status (dataUrl serviceUrl resource) url_params = 404 then
    (.ok none, [.get (dataUrl serviceUrl resource)])
  else if 400 ≤ srv.status (dataUrl serviceUrl resource) url_params ∧
      srv.status (dataUrl serviceUrl resource) url_params < 600 then
    (.error (.httpError (srv.status (dataUrl serviceUrl resource) url_params)),
     [.get (dataUrl serviceUrl resource)])
  else
    (.ok (some (srv.body (dataUrl serviceUrl resource) url_params)),
     [.get (dataUrl serviceUrl resource)])

/-!
## Batched CRUD operations and the custom-endpoint call
-/

/-- Python dict insertion: an existing key keeps its position and gets the new
value; a new key is appended. -/
def pyDictInsert {β : Type} (d : List (String × β)) (k : String) (v : β) :
    List (String × β) :=
  if d.any (fun p => p.1 == k) then
    d.map (fun p => if p.1 == k then (k, v) else p)
  else d ++ [(k, v)]

/-- A Python dict built by inserting the given pairs left to right (the
semantics of a dict literal/comprehension: later duplicates override). -/
def pyDictOfPairs {β : Type} (l : List (String × β)) : List (String × β) :=
  l.foldl (fun d p => pyDictInsert d p.1 p.2) []

/-- The composite-payload entry `{"attributes": {"type": stype}, **rec}` built
for each record (sfapi.py lines 225 and 267). -/
def recordWithAttributes (stype : String) (rec : PyDict) : PyDict :=
  pyDictOfPairs (("attributes", JVal.obj [("type", JVal.str stype)]) :: rec)

/-- The `sobject_type` argument of the batched operations: a single name, or a
per-record list of names. -/
inductive SObjectTypeArg where
  | str (s : String)
  | list (l : List String)
  deriving DecidableEq, Repr

/-- The composite payload `{"allOrNone": ..., "records": [...]}` posted by the
batched operations. -/
structure BatchPayload where
  allOrNone : Bool
  records : List PyDict

/-- `insert_records` (sfapi.py lines 190-227).  `post` stands for the
`self._http_post(fullurl, payload)` call (itself a `managed` network
operation), abstracted as a function of the payload so that the validation and
payload-equality claims hold for every transport behavior.  The two
validations run before any network activity, so their traces are empty. -/
def insert_records (post : BatchPayload → Except PyErr JVal × List NetEvent)
    (sobject_type : SObjectTypeArg) (sobjects : List PyDict) (all_or_none : Bool) :
    Except PyErr JVal × List NetEvent :=
  if sobjects.length > 200 then
    (.error (.valueError ("API " ++ SF_API_VERSION ++
      " supports a maximum of 200 records at a time")), [])
  else
    let types := match sobject_type with
      | .str s => List.replicate sobjects.length s
      | .list l => l
    if types.length ≠ sobjects.length then
      (.error (.valueError "Number of sobject types must match number of sobject records"), [])
    else
      post { allOrNone := all_or_none,
             records := (types.zip sobjects).map (fun ts => recordWithAttributes ts.1 ts.2) }

/-- `update_records` (sfapi.py lines 232-269): the same validations and payload
construction as `insert_records`, with the composite URL hit via
`self._http_patch` instead (abstracted as `patch`). -/
def update_records (patch : BatchPayload → Except PyErr JVal × List NetEvent)
    (sobject_type : SObjectTypeArg) (sobjects : List PyDict) (all_or_none : Bool) :
    Except PyErr JVal × List NetEvent :=
  if sobjects.length > 200 then
    (.error (.valueError ("API " ++ SF_API_VERSION ++
      " supports a maximum of 200 records at a time")), [])
  else
    let types := match sobject_type with
      | .str s => List.replicate sobjects.length s
      | .list l => l
    if types.length ≠ sobjects.length then
      (.error (.valueError "Number of sobject types must match number of sobject records"), [])
    else
      patch { allOrNone := all_or_none,
              records := (types.zip sobjects).map (fun ts => recordWithAttributes ts.1 ts.2) }

/-- The raw-text GET behavior seen by `SFClient.call`. -/
structure TextServer where
  text : String → String

/-- The body of `SFClient.call` (sfapi.py lines 321-335) before the `managed`
wrapper: a `None` or empty `urn` raises `ValueError` (before any network
activity of this body); otherwise a leading slash is stripped, the custom URL
is GETted, and the raw response text is returned with no status check. -/
def callInner (srv : TextServer) (serviceUrl : String) (urn : Option String) :
    Except PyErr String × List NetEvent :=
  match urn with
  | none => (.error (.valueError "urn parameter is not valid"), [])
  | some u =>
    if u.data.length = 0 then
      (.error (.valueError "urn parameter is not valid"), [])
    else
      let u2 := if u.data.head? = some '/' then String.mk u.data.tail else u
      let fullurl := serviceUrl ++ "/" ++ u2
      (.ok (srv.text fullurl), [.get fullurl])

/-- `SFClient.call` (sfapi.py lines 321-335): the inner body under the
`managed` wrapper. -/
def call (srv : TextServer) (auth : AuthOutcome) (serviceUrl : String)
    (urn : Option String) : Except PyErr String × List NetEvent × Nat :=
  managed auth (fun _ => callInner srv serviceUrl urn)

/-!
## The schema (describe) cache
-/

/-- One field descriptor from a describe response: an opaque dictionary
carrying at least a string `name`. -/
abbrev FieldDesc := PyDict

/-- The string `name` value of a field descriptor (`itemgetter('name')` and
`f['name']`; real describe entries always carry a string name, so the fallback
is never exercised on well-formed responses). -/
def fieldName (f : FieldDesc) : String :=
  match f.find? (fun p => p.1 == "name") with
  | some p => match p.2 with
    | .str s => s
    | _ => ""
  | none => ""

/-- Stable insertion of a descriptor into a name-sorted list: an entry from an
earlier position goes before entries with an equal name. -/
def insertSortedByName (f : FieldDesc) : List FieldDesc → List FieldDesc
  | [] => [f]
  | g :: gs =>
    if fieldName f ≤ fieldName g then f :: g :: gs else g :: insertSortedByName f gs

/-- `fieldlist.sort(key=operator.itemgetter('name'))` (sfapi.py line 152):
Python's sort is stable and sorts by the string key, which determines its
output uniquely; a stable insertion sort realizes the same function. -/
def sortByName : List FieldDesc → List FieldDesc
  | [] => []
  | f :: fs => insertSortedByName f (sortByName fs)

/-- The describe endpoint's behavior, as the parsed `response['fields']` list
for a given (already lower-cased in the URL) sobject name.  Transport failures
of the underlying `_http_get` are orthogonal to the cache claims and are
exercised through `httpGetInner` elsewhere. -/
structure DescribeServer where
  fields : String → List FieldDesc

/-- The `@lru_cache(maxsize=10)` state of `sobject_field_list`: entries keyed
by the argument string as passed, most recently used first. -/
abbrev FieldCache := List (String × List FieldDesc)

/-- Cache lookup by exact key. -/
def cacheGet (c : FieldCache) (k : String) : Option (List FieldDesc) :=
  (c.find? (fun p => p.1 == k)).map (fun p => p.2)

/-- On a hit the LRU cache moves the entry to the front. -/
def cacheTouch (c : FieldCache) (k : String) : FieldCache :=
  match c.find? (fun p => p.1 == k) with
  | some p => p :: c.eraseP (fun q => q.1 == k)
  | none => c

/-- On a miss the LRU cache inserts at the front and evicts beyond capacity
10. -/
def cacheInsert (c : FieldCache) (k : String) (v : List FieldDesc) : FieldCache :=
  ((k, v) :: c).take 10

/-- `sobject_field_list` (sfapi.py lines 78-153): memoized by
`@lru_cache(maxsize=10)` keyed on the argument exactly as passed; on a miss it
GETs `sobjects/{name.lower()}/describe/` and stably sorts the returned field
list by name.  Returns the list, the cache after the call, and the network
events the call emitted. -/
def sobject_field_list (srv : DescribeServer) (cache : FieldCache) (name : String) :
    List FieldDesc × FieldCache × List NetEvent :=
  match cacheGet cache name with
  | some v => (v, cacheTouch cache name, [])
  | none =>
    let content := sortByName (srv.fields (pyLower name))
    (content, cacheInsert cache name content,
     [.get ("sobjects/" ++ pyLower name ++ "/describe/")])

/-- `sobject_field_map` (sfapi.py lines 155-157): look the list up under the
lower-cased name and build the dict from lower-cased field name to
descriptor. -/
def sobject_field_map (srv : DescribeServer) (cache : FieldCache) (name : String) :
    List (String × FieldDesc) × FieldCache × List NetEvent :=
  let r := sobject_field_list srv cache (pyLower name)
  (pyDictOfPairs (r.1.map (fun f => (pyLower (fieldName f), f))), r.2.1, r.2.2)

/-- Cache well-formedness: every cached value is what a describe of that key
would produce (true of every state reachable from the empty cache). -/
def cacheWF (srv : DescribeServer) (c : FieldCache) : Prop :=
  ∀ p ∈ c, p.2 = sortByName (srv.fields (pyLower p.1))

/-!
## The paginated query generator
-/

/-- One page of a query response: its `records` plus the `nextRecordsUrl`
field — absent (`none`), present but `null` (`some none`), or a URL
(`some (some u)`). -/
structure QueryPage (α : Type) where
  records : List α
  nextRecordsUrl : Option (Option String)

/-- An observable step of the `query` generator (sfapi.py lines 280-308): an
HTTP request for a page, or one record handed to the consumer. -/
inductive QEvent (α : Type) where
  | request
  | yield (r : α)
  deriving DecidableEq, Repr

/-- The full event trace of the `query` generator (sfapi.py lines 280-308) run
to exhaustion against a server that serves the given pages in order: request
the first page, yield its records in order, and, while the response carries a
non-null `nextRecordsUrl`, request the next page and yield its records.
Laziness is captured by the event order: a consumer that stops consuming
truncates the trace at that point. -/
def queryEvents {α : Type} : List (QueryPage α) → List (QEvent α)
  | [] => []
  | p :: rest =>
    QEvent.request :: (p.records.map QEvent.yield ++
      (match p.nextRecordsUrl with
       | some (some _) => queryEvents rest
       | _ => []))

/-- A page list is a well-formed server result chain when it is nonempty,
every page before the last carries a next-page URL, and the last page carries
none (absent or null). -/
def wfChain {α : Type} : List (QueryPage α) → Prop
  | [] => False
  | [p] => p.nextRecordsUrl = none ∨ p.nextRecordsUrl = some none
  | p :: q :: rest => (∃ u, p.nextRecordsUrl = some (some u)) ∧ wfChain (q :: rest)

/-- The records a consumer receives from an event trace, in order. -/
def yieldsOf {α : Type} : List (QEvent α) → List α
  | [] => []
  | QEvent.request :: rest => yieldsOf rest
  | QEvent.yield r :: rest => r :: yieldsOf rest

/-- How many page requests an event trace contains. -/
def requestCount {α : Type} : List (QEvent α) → Nat
  | [] => 0
  | QEvent.request :: rest => requestCount rest + 1
  | QEvent.yield _ :: rest => requestCount rest

/-- The trace prefix a consumer observes when it abandons the generator right
after the first record. -/
def takeToFirstYield {α : Type} : List (QEvent α) → List (QEvent α)
  | [] => []
  | QEvent.yield r :: _ => [QEvent.yield r]
  | QEvent.request :: rest => QEvent.request :: takeToFirstYield rest

/-- `query_one` (sfapi.py lines 310-319): advance the `query` generator to its
first record, or `None` when the iteration finishes without one. -/
def query_one {α : Type} (pages : List (QueryPage α)) : Option α :=
  (yieldsOf (queryEvents pages)).head?

/-!
## Single-record fetch
-/

/-- `fetch_record` (sfapi.py lines 162-176): when `field_list` is omitted it
is defaulted to the keys of `sobject_field_map`; the record is then GETted —
through the `managed` `_http_get` — at `sobjects/{name}/{id}` with the joined
field projection as a query parameter.  Returns the outcome and the full
network-event trace of the call. -/
def fetch_record (dsrv : DescribeServer) (cache : FieldCache) (gsrv : GetServer)
    (auth : AuthOutcome) (serviceUrl sobject_name recid : String)
    (field_list : Option (List String)) :
    Except PyErr (Option JVal) × List NetEvent :=
  match field_list with
  | some fl =>
    ((managed auth (fun _ =>
        httpGetInner gsrv serviceUrl ("sobjects/" ++ sobject_name ++ "/" ++ recid)
          [("fields", String.intercalate "," fl)])).1,
     (managed auth (fun _ =>
        httpGetInner gsrv serviceUrl ("sobjects/" ++ sobject_name ++ "/" ++ recid)
          [("fields", String.intercalate "," fl)])).2.1)
  | none =>
    ((managed auth (fun _ =>
        httpGetInner gsrv serviceUrl ("sobjects/" ++ sobject_name ++ "/" ++ recid)
          [("fields", String.intercalate ","
            ((sobject_field_map dsrv cache sobject_name).1.map (fun p => p.1)))])).1,
     (sobject_field_map dsrv cache sobject_name).2.2 ++
       (managed auth (fun _ =>
          httpGetInner gsrv serviceUrl ("sobjects/" ++ sobject_name ++ "/" ++ recid)
            [("fields", String.intercalate ","
              ((sobject_field_map dsrv cache sobject_name).1.map (fun p => p.1)))])).2.1)

/-!
## Heap model of the batch payload construction
-/

/-- A heap of Python dictionary objects: an address is an index into the
store.  Only the dictionaries need modelling as mutable objects here: the
record-building loop performs no list mutation on its inputs (its only
`append` targets the freshly created `records` list, represented by the
returned address list). -/
structure Heap where
  cells : List PyDict

/-- Dereference an address (total, with an empty dict for a dangling address,
which Python itself can never produce for a live object). -/
def Heap.get (h : Heap) (a : Nat) : Option PyDict := h.cells[a]?

/-- Allocate a fresh dictionary, returning its address. -/
def Heap.alloc (h : Heap) (d : PyDict) : Heap × Nat :=
  (⟨h.cells ++ [d]⟩, h.cells.length)

/-- The record-building loop of `insert_records`/`update_records` (sfapi.py
lines 222-227 and 264-269) over the heap: for each `(stype, rec)` pair read
the input dict, allocate the fresh `{"attributes": {"type": stype}, **rec}`
literal (`**rec` reads and copies, never writes), and collect the fresh
addresses in order. -/
def buildRecordsHeap (h : Heap) (types : List String) (recRefs : List Nat) :
    Heap × List Nat :=
  match types, recRefs with
  | t :: ts, a :: rs =>
    let d := ((h.get a).getD [])
    let h1b := h.alloc (recordWithAttributes t d)
    let h2bs := buildRecordsHeap h1b.1 ts rs
    (h2bs.1, h1b.2 :: h2bs.2)
  | _, _ => (h, [])

/-- A success-shaped token-exchange response body. -/
def successTokenBody : List (String × String) :=
  [("access_token", "tok"), ("instance_url", "https://na1.example.salesforce.com")]

/-- A 200 response whose body has a token but no `instance_url`. -/
def truncatedTokenBody : List (String × String) :=
  [("access_token", "tok")]

/-- A wrapped operation that fails on its first invocation and succeeds on the
retry. -/
def opRetryOk : Nat → Except PyErr Nat × List NetEvent :=
  fun n => if n = 0 then (.error (.exception "boom"), []) else (.ok 42, [])

/-- A wrapped operation that fails on every invocation, with a different error
the second time. -/
def opAlwaysFails : Nat → Except PyErr Nat × List NetEvent :=
  fun n => if n = 0 then (.error (.exception "first failure"), [])
           else (.error (.exception "second failure"), [])

/-- A custom-endpoint server returning empty text everywhere. -/
def srvTextEmpty : TextServer := ⟨fun _ => ""⟩

/-- A describe server with one `Id` field on every sobject. -/
def dsrvOneField : DescribeServer := ⟨fun _ => [[("name", JVal.str "Id")]]⟩

/-- A data-plane server answering 404 to every GET. -/
def gsrvAll404 : GetServer := ⟨fun _ _ => 404, fun _ _ => JVal.null⟩

/-- First page of the worked pagination example: two records and a next-page
cursor. -/
def pageOne : QueryPage Nat := ⟨[1, 2], some (some "/services/data/query/next")⟩

/-- Second page of the worked pagination example: one record, no cursor. -/
def pageTwo : QueryPage Nat := ⟨[3], none⟩

/-- A one-cell heap holding a caller record dictionary. -/
def heapOne : Heap := ⟨[[("Name", JVal.str "Acme")]]⟩

/-- A composite-endpoint behavior that accepts every payload. -/
def postEmpty : BatchPayload → Except PyErr JVal × List NetEvent :=
  fun _ => (.ok JVal.null, [])

/-!
## Helper lemmas
-/

/-- `Char.toLower` is idempotent: lowering maps the uppercase ASCII range into
the lowercase range, which the condition then rejects. -/
theorem char_toLower_idem (c : Char) : c.toLower.toLower = c.toLower := by
  show Char.toLower c.toLower = c.toLower
  by_cases h : c.toNat ≥ 65 ∧ c.toNat ≤ 90
  · have hv : (c.toNat + 32).isValidChar := Or.inl (by omega)
    have h1 : c.toLower = Char.ofNat (c.toNat + 32) := by
      simp [Char.toLower, h]
    have ht : (Char.ofNat (c.toNat + 32)).toNat = c.toNat + 32 := by
      unfold Char.ofNat
      rw [dif_pos hv]
      rfl
    rw [Char.toLower, h1]
    rw [if_neg (by rw [ht]; omega)]
  · have h1 : c.toLower = c := by simp [Char.toLower, h]
    rw [h1, Char.toLower, if_neg h]

/-- `pyLower` is idempotent. -/
theorem pyLower_idem (s : String) : pyLower (pyLower s) = pyLower s := by
  unfold pyLower
  refine congrArg String.mk ?_
  show (s.data.map Char.toLower).map Char.toLower = s.data.map Char.toLower
  rw [List.map_map]
  exact List.map_congr_left (fun c _ => char_toLower_idem c)

/-- Records yielded by a page's events followed by further events. -/
theorem yieldsOf_map_yield {α : Type} (recs : List α) (es : List (QEvent α)) :
    yieldsOf (recs.map QEvent.yield ++ es) = recs ++ yieldsOf es := by
  induction recs with
  | nil => rfl
  | cons r rs ih => simp [yieldsOf, ih]

/-- Yield events contribute no requests. -/
theorem requestCount_map_yield {α : Type} (recs : List α) (es : List (QEvent α)) :
    requestCount (recs.map QEvent.yield ++ es) = requestCount es := by
  induction recs with
  | nil => rfl
  | cons r rs ih => simp [requestCount, ih]

/-- The generator's full trace over a well-formed chain yields the
concatenation of the pages' records and makes one request per page. -/
theorem queryEvents_chain {α : Type} :
    ∀ pages : List (QueryPage α), wfChain pages →
      yieldsOf (queryEvents pages) = (pages.map QueryPage.records).flatten ∧
      requestCount (queryEvents pages) = pages.length := by
  intro pages
  induction pages with
  | nil => intro h; exact absurd h (by simp [wfChain])
  | cons p rest ih =>
    intro h
    cases rest with
    | nil =>
      have h1 : yieldsOf (p.records.map QEvent.yield) = p.records := by
        simpa [yieldsOf] using yieldsOf_map_yield p.records []
      have h2 : requestCount (p.records.map QEvent.yield) = 0 := by
        simpa [requestCount] using requestCount_map_yield p.records []
      rcases h with h | h <;>
        exact ⟨by simp [queryEvents, h, yieldsOf, h1],
               by simp [queryEvents, h, requestCount, h2]⟩
    | cons q rest2 =>
      obtain ⟨⟨u, hu⟩, hwf⟩ := h
      obtain ⟨ih1, ih2⟩ := ih hwf
      generalize hg : (q :: rest2 : List (QueryPage α)) = rest at ih1 ih2 ⊢
      constructor
      · simp only [queryEvents, hu]
        rw [yieldsOf, yieldsOf_map_yield, ih1]
        simp
      · simp only [queryEvents, hu]
        rw [requestCount, requestCount_map_yield, ih2]
        simp

/-- Keys of a Python dict after one insertion. -/
theorem mem_keys_pyDictInsert {β : Type} (d : List (String × β)) (k0 k : String) (v : β) :
    k ∈ (pyDictInsert d k0 v).map Prod.fst ↔ k ∈ d.map Prod.fst ∨ k = k0 := by
  unfold pyDictInsert
  by_cases ha : (d.any (fun p => p.1 == k0)) = true
  · obtain ⟨p0, hp0, hpk⟩ := List.any_eq_true.mp ha
    have hp0k : p0.1 = k0 := by simpa using hpk
    rw [if_pos ha, List.map_map]
    have hkeys : d.map (Prod.fst ∘ fun p => if p.1 == k0 then (k0, v) else p)
        = d.map (fun p => if p.1 = k0 then k0 else p.1) := by
      apply List.map_congr_left
      intro q _
      by_cases h : q.1 = k0 <;> simp [Function.comp, h]
    rw [hkeys]
    constructor
    · intro hk
      obtain ⟨q, hq, hqe⟩ := List.mem_map.mp hk
      by_cases h : q.1 = k0
      · right
        rw [← hqe, if_pos h]
      · left
        exact List.mem_map.mpr ⟨q, hq, by rw [if_neg h] at hqe; exact hqe⟩
    · intro hk
      rcases hk with hk | hk
      · obtain ⟨q, hq, hqe⟩ := List.mem_map.mp hk
        apply List.mem_map.mpr
        refine ⟨q, hq, ?_⟩
        by_cases h : q.1 = k0
        · rw [if_pos h, ← h]
          exact hqe
        · rw [if_neg h]
          exact hqe
      · exact List.mem_map.mpr ⟨p0, hp0, by rw [if_pos hp0k, hk]⟩
  · rw [if_neg ha]
    simp

/-- Keys of a Python dict built from pairs are exactly the pairs' keys. -/
theorem mem_keys_pyDictOfPairs {β : Type} (l : List (String × β)) (k : String) :
    k ∈ (pyDictOfPairs l).map Prod.fst ↔ k ∈ l.map Prod.fst := by
  have general : ∀ (l : List (String × β)) (d : List (String × β)),
      k ∈ (l.foldl (fun d p => pyDictInsert d p.1 p.2) d).map Prod.fst ↔
        k ∈ d.map Prod.fst ∨ k ∈ l.map Prod.fst := by
    intro l
    induction l with
    | nil => intro d; simp
    | cons p ps ih =>
      intro d
      rw [List.foldl_cons, ih, mem_keys_pyDictInsert]
      simp
      tauto
  rw [pyDictOfPairs, general]
  simp

/-- A successful cache lookup comes from an entry of the cache whose key
matches. -/
theorem cacheGet_spec (c : FieldCache) (k : String) (v : List FieldDesc)
    (h : cacheGet c k = some v) : ∃ p ∈ c, p.1 = k ∧ p.2 = v := by
  unfold cacheGet at h
  cases hf : c.find? (fun p => p.1 == k) with
  | none => rw [hf] at h; cases h
  | some p =>
    rw [hf] at h
    refine ⟨p, List.mem_of_find?_eq_some hf, ?_, ?_⟩
    · simpa using List.find?_some hf
    · simpa using h

/-- On a cache hit `sobject_field_list` returns the cached value, touches the
entry, and performs no network activity. -/
theorem sobject_field_list_hit (srv : DescribeServer) (c : FieldCache) (k : String)
    (v : List FieldDesc) (h : cacheGet c k = some v) :
    sobject_field_list srv c k = (v, cacheTouch c k, []) := by
  unfold sobject_field_list
  rw [h]

/-- Under a well-formed cache, the value `sobject_field_list` returns is the
sorted describe content for the lower-cased name — whether served from the
cache or fetched. -/
theorem sobject_field_list_val (srv : DescribeServer) (c : FieldCache) (name : String)
    (hwf : cacheWF srv c) :
    (sobject_field_list srv c name).1 = sortByName (srv.fields (pyLower name)) := by
  unfold sobject_field_list
  cases hg : cacheGet c name with
  | none => rfl
  | some v =>
    obtain ⟨p, hm, hk, hv⟩ := cacheGet_spec c name v hg
    show v = sortByName (srv.fields (pyLower name))
    rw [← hv, hwf p hm, hk]

/-- After any `sobject_field_list` call, the looked-up name is present in the
resulting cache with the value just returned. -/
theorem sobject_field_list_stable (srv : DescribeServer) (c : FieldCache) (name : String) :
    cacheGet (sobject_field_list srv c name).2.1 name =
      some (sobject_field_list srv c name).1 := by
  unfold sobject_field_list
  cases hf : c.find? (fun p => p.1 == name) with
  | none =>
    have hg : cacheGet c name = none := by simp [cacheGet, hf]
    rw [hg]
    show cacheGet (cacheInsert c name _) name = _
    unfold cacheInsert cacheGet
    rw [List.take_succ_cons, List.find?]
    simp
  | some p =>
    have hp := List.find?_some hf
    have hg : cacheGet c name = some p.2 := by simp [cacheGet, hf]
    rw [hg]
    show cacheGet (cacheTouch c name) name = some p.2
    unfold cacheTouch cacheGet
    rw [hf, List.find?]
    simp [hp]

/-- Every `sobject_field_list` call preserves cache well-formedness. -/
theorem cacheWF_field_list (srv : DescribeServer) (c : FieldCache) (name : String)
    (hwf : cacheWF srv c) : cacheWF srv (sobject_field_list srv c name).2.1 := by
  unfold sobject_field_list
  cases hf : c.find? (fun p => p.1 == name) with
  | none =>
    have hg : cacheGet c name = none := by simp [cacheGet, hf]
    rw [hg]
    intro p hp
    have hp2 : p ∈ (name, sortByName (srv.fields (pyLower name))) :: c :=
      List.take_subset _ _ hp
    rcases List.mem_cons.mp hp2 with h | h
    · rw [h]
    · exact hwf p h
  | some q =>
    have hg : cacheGet c name = some q.2 := by simp [cacheGet, hf]
    rw [hg]
    intro p hp
    show p.2 = sortByName (srv.fields (pyLower p.1))
    have hp2 : p ∈ cacheTouch c name := hp
    unfold cacheTouch at hp2
    rw [hf] at hp2
    rcases List.mem_cons.mp hp2 with h | h
    · exact hwf p (h ▸ List.mem_of_find?_eq_some hf)
    · exact hwf p ((List.eraseP_sublist c).subset h)

/-- The trace of `sobject_field_list` never contains the token POST. -/
theorem tokenPost_not_mem_flist (srv : DescribeServer) (c : FieldCache) (n : String) :
    NetEvent.tokenPost ∉ (sobject_field_list srv c n).2.2 := by
  unfold sobject_field_list
  cases cacheGet c n <;> simp

/-- A `managed` operation that succeeds on its first invocation returns that
result with no reauthentication and no retry. -/
theorem managed_first_ok {α : Type} (auth : AuthOutcome)
    (op : Nat → Except PyErr α × List NetEvent) (v : α) (t : List NetEvent)
    (h : op 0 = (.ok v, t)) : managed auth op = (.ok v, t, 1) := by
  unfold managed
  rw [h]

/-!
## Claim theorems
-/

/-- C1: for every operation wrapped by `managed`, if the first invocation
raises and the subsequent `authenticate()` leaves the authenticator
authenticated, the wrapper invokes the operation exactly once more and
returns that second invocation's outcome — the operation is never invoked a
third time, regardless of the second invocation's outcome. -/
theorem claim_C1_retry_exactly_once {α : Type} (auth : AuthOutcome)
    (op : Nat → Except PyErr α × List NetEvent) (e : PyErr) (t : List NetEvent)
    (h0 : op 0 = (.error e, t)) (ha : auth = .ok true) :
    (managed auth op).1 = (op 1).1 ∧ (managed auth op).2.2 = 2 := by
  unfold managed
  rw [h0, ha]
  exact ⟨rfl, rfl⟩

/-- Witness for C1 at a concrete failing-then-succeeding operation. -/
theorem claim_C1_witness :
    (managed (Except.ok true) opRetryOk).1 = (opRetryOk 1).1 ∧
    (managed (Except.ok true) opRetryOk).2.2 = 2 :=
  claim_C1_retry_exactly_once (Except.ok true) opRetryOk (.exception "boom") [] rfl rfl

/-- C2 counterexample: an operation whose first invocation raises one error
and whose retry raises a different one surfaces the retry's error, not the
original — refuting "the error surfaced to the caller is exactly the original
error E" for the retry-also-fails case. -/
theorem claim_C2_counterexample :
    (opAlwaysFails 0).1 = Except.error (PyErr.exception "first failure") ∧
    (managed (Except.ok true) opAlwaysFails).1 =
      Except.error (PyErr.exception "second failure") ∧
    PyErr.exception "second failure" ≠ PyErr.exception "first failure" :=
  ⟨rfl, rfl, by decide⟩

/-- C2 amended: what `managed` actually surfaces when the failure is not
recovered — the original error only when re-authentication returns
unauthenticated; re-authentication's own error when `authenticate()` raises;
and the retry's error (not necessarily the original) when the retry fails. -/
theorem claim_C2_error_surfacing {α : Type} (auth : AuthOutcome)
    (op : Nat → Except PyErr α × List NetEvent) (e : PyErr) (t : List NetEvent)
    (h0 : op 0 = (.error e, t)) :
    (auth = .ok false → (managed auth op).1 = .error e) ∧
    (∀ ae, auth = .error ae → (managed auth op).1 = .error ae) ∧
    (∀ e2 t2, auth = .ok true → op 1 = (.error e2, t2) →
      (managed auth op).1 = .error e2) := by
  refine ⟨?_, ?_, ?_⟩
  · intro hf
    subst hf
    unfold managed
    rw [h0]
  · intro ae hae
    subst hae
    unfold managed
    rw [h0]
  · intro e2 t2 ht h1
    subst ht
    unfold managed
    rw [h0]
    show (op 1).1 = Except.error e2
    rw [h1]

/-- Witness for C2's amended statement at a concrete twice-failing
operation. -/
theorem claim_C2_witness :
    (managed (Except.ok true) opAlwaysFails).1 =
      Except.error (PyErr.exception "second failure") :=
  (claim_C2_error_surfacing (Except.ok true) opAlwaysFails
      (.exception "first failure") [] rfl).2.2
    (.exception "second failure") [] rfl rfl

/-- C3 (code bug): on a success-shaped token response the password-grant
`authenticate()` does not complete — line 92's `super._authenticated = True`
raises `TypeError` — leaving the session unauthenticated and unpopulated,
contrary to the documented behavior shared with the JWT variant. -/
theorem claim_C3_password_grant_raises :
    OAuthPasswordAuthenticate SFAuthenticatorInit ⟨200, successTokenBody⟩ =
      (Except.error (PyErr.typeError "cannot set attributes of immutable builtin type super"),
       SFAuthenticatorInit) ∧
    is_authenticated
      (OAuthPasswordAuthenticate SFAuthenticatorInit ⟨200, successTokenBody⟩).2 = false ∧
    (OAuthJWTauthenticate SFAuthenticatorInit ⟨200, successTokenBody⟩).1 = Except.ok () :=
  ⟨by decide, by decide, by decide⟩

/-- C4 counterexample: a 200 token response carrying `access_token` but no
`instance_url` makes `OAuthJWT.authenticate` raise `KeyError` after it has
already set `_authenticated = True`, leaving a state where
`is_authenticated()` is true but the service URL is unset — the invariant
fails after this raising `authenticate()`. -/
theorem claim_C4_counterexample :
    (OAuthJWTauthenticate SFAuthenticatorInit ⟨200, truncatedTokenBody⟩).1 =
      Except.error (PyErr.keyError "instance_url") ∧
    ¬ sessionInvariant (OAuthJWTauthenticate SFAuthenticatorInit ⟨200, truncatedTokenBody⟩).2 :=
  ⟨by decide, by decide⟩

/-- C4 amended: the session invariant holds after construction and is
preserved by every `authenticate()` call that returns normally or that raises
before the success flag is set (provider error field, or HTTP error status);
only a call that raises while populating the session from a success-shaped
but incomplete response can break it.  The password variant preserves the
invariant unconditionally (it never reaches the population step). -/
theorem claim_C4_invariant_conditional :
    sessionInvariant SFAuthenticatorInit ∧
    (∀ st rsp, sessionInvariant st →
      ((OAuthJWTauthenticate st rsp).1 = Except.ok () ∨ hasKey rsp.body "error" = true ∨
        (400 ≤ rsp.status ∧ rsp.status < 600)) →
      sessionInvariant (OAuthJWTauthenticate st rsp).2) ∧
    (∀ st rsp, sessionInvariant st →
      sessionInvariant (OAuthPasswordAuthenticate st rsp).2) := by
  refine ⟨by decide, ?_, ?_⟩
  · intro st rsp hinv hcase
    unfold OAuthJWTauthenticate at hcase ⊢
    cases hk : hasKey rsp.body "error" with
    | true =>
      simp only [hk, if_true]
      cases dictGet rsp.body "error_description" <;> exact hinv
    | false =>
      simp only [hk, Bool.false_eq_true, if_false] at hcase ⊢
      cases hrs : raiseForStatus rsp.status with
      | error e => simpa [hrs] using hinv
      | ok u =>
        simp only [hrs] at hcase ⊢
        unfold construct
        cases hat : dictGet rsp.body "access_token" with
        | error e =>
          exfalso
          rcases hcase with hok | hk2 | hst
          · simp [construct, hat] at hok
          · exact hk2
          · exact absurd hrs (by unfold raiseForStatus; simp [hst])
        | ok tok =>
          cases hiu : dictGet rsp.body "instance_url" with
          | error e =>
            exfalso
            rcases hcase with hok | hk2 | hst
            · simp [construct, hat, hiu] at hok
            · exact hk2
            · exact absurd hrs (by unfold raiseForStatus; simp [hst])
          | ok url =>
            simp [sessionInvariant]
  · intro st rsp hinv
    unfold OAuthPasswordAuthenticate
    cases hk : hasKey rsp.body "error" with
    | true =>
      simp only [hk, if_true]
      cases dictGet rsp.body "error_description" <;> exact hinv
    | false =>
      simp only [hk, Bool.false_eq_true, if_false]
      cases raiseForStatus rsp.status <;> exact hinv

/-- Witness for C4's amended statement: a full success response preserves the
invariant through the JWT variant. -/
theorem claim_C4_witness :
    sessionInvariant (OAuthJWTauthenticate SFAuthenticatorInit ⟨200, successTokenBody⟩).2 :=
  claim_C4_invariant_conditional.2.1 SFAuthenticatorInit ⟨200, successTokenBody⟩
    (by decide) (Or.inl (by decide))

/-- C5 counterexample: `call` is wrapped by `managed`, so its empty-path
`ValueError` is caught by the wrapper, which performs the reauthentication
token POST (a network call) and invokes the operation a second time before
the `ValueError` finally propagates — refuting "raised before any network
call is made, and never retried" for this validation error. -/
theorem claim_C5_counterexample :
    call srvTextEmpty (Except.ok true) "https://svc" (some "") =
      (Except.error (PyErr.valueError "urn parameter is not valid"),
       [NetEvent.tokenPost], 2) ∧
    ([NetEvent.tokenPost] : List NetEvent) ≠ [] :=
  ⟨rfl, by decide⟩

/-- C5 amended: the batch-size and length-mismatch validations of
`insert_records`/`update_records` raise before any network call and are never
retried (those methods are not wrapped); the empty/None-path validation of
`call`, however, happens inside the `managed` wrapper, so under an
authenticator whose `authenticate()` succeeds it triggers one token-POST
network call and one retry of the operation before the `ValueError`
surfaces. -/
theorem claim_C5_validation (post patch : BatchPayload → Except PyErr JVal × List NetEvent)
    (stype : SObjectTypeArg) (sobjects : List PyDict) (aon : Bool) :
    (sobjects.length > 200 →
      insert_records post stype sobjects aon =
        (.error (.valueError ("API " ++ SF_API_VERSION ++
          " supports a maximum of 200 records at a time")), []) ∧
      update_records patch stype sobjects aon =
        (.error (.valueError ("API " ++ SF_API_VERSION ++
          " supports a maximum of 200 records at a time")), [])) ∧
    (∀ l, stype = SObjectTypeArg.list l → l.length ≠ sobjects.length →
      ¬ sobjects.length > 200 →
      insert_records post stype sobjects aon =
        (.error (.valueError "Number of sobject types must match number of sobject records"), []) ∧
      update_records patch stype sobjects aon =
        (.error (.valueError "Number of sobject types must match number of sobject records"), [])) ∧
    (∀ srv su, call srv (.ok true) su (some "") =
        (.error (.valueError "urn parameter is not valid"), [.tokenPost], 2) ∧
      call srv (.ok true) su none =
        (.error (.valueError "urn parameter is not valid"), [.tokenPost], 2)) := by
  refine ⟨?_, ?_, ?_⟩
  · intro h
    exact ⟨by unfold insert_records; rw [if_pos h],
           by unfold update_records; rw [if_pos h]⟩
  · intro l hst hne h200
    subst hst
    constructor
    · unfold insert_records
      rw [if_neg h200]
      exact if_pos hne
    · unfold update_records
      rw [if_neg h200]
      exact if_pos hne
  · intro srv su
    exact ⟨rfl, rfl⟩

/-- Witness for C5's amended statement at concrete oversized, mismatched, and
empty-path inputs. -/
theorem claim_C5_witness :
    insert_records postEmpty (SObjectTypeArg.str "Account") (List.replicate 201 []) false =
      (.error (.valueError ("API " ++ SF_API_VERSION ++
        " supports a maximum of 200 records at a time")), []) ∧
    update_records postEmpty (SObjectTypeArg.list ["Account"]) [[], []] false =
      (.error (.valueError "Number of sobject types must match number of sobject records"), []) ∧
    call srvTextEmpty (.ok true) "https://svc" none =
      (.error (.valueError "urn parameter is not valid"), [NetEvent.tokenPost], 2) :=
  ⟨((claim_C5_validation postEmpty postEmpty (SObjectTypeArg.str "Account")
      (List.replicate 201 []) false).1 (by rw [List.length_replicate]; decide)).1,
   ((claim_C5_validation postEmpty postEmpty (SObjectTypeArg.list ["Account"])
      [[], []] false).2.1 ["Account"] rfl (by simp) (by simp)).2,
   ((claim_C5_validation postEmpty postEmpty (SObjectTypeArg.str "x")
      [] false).2.2 srvTextEmpty "https://svc").2⟩

/-- C6: passing a single sobject type string to `insert_records` or
`update_records` behaves identically — same validation outcome, same payload
handed to the transport, same result and trace — to passing that string
replicated once per record, for every transport behavior. -/
theorem claim_C6_single_type_equals_replicated
    (post patch : BatchPayload → Except PyErr JVal × List NetEvent)
    (s : String) (sobjects : List PyDict) (aon : Bool) :
    insert_records post (SObjectTypeArg.str s) sobjects aon =
      insert_records post (SObjectTypeArg.list (List.replicate sobjects.length s)) sobjects aon ∧
    update_records patch (SObjectTypeArg.str s) sobjects aon =
      update_records patch (SObjectTypeArg.list (List.replicate sobjects.length s)) sobjects aon :=
  ⟨rfl, rfl⟩

/-- C7: over a well-formed page chain the `query` generator yields exactly the
concatenation of every page's records, in order within pages and across
pages, with one request per page; and when the first page has a first
record, `query_one` returns it while the consumed trace prefix contains only
the first-page request. -/
theorem claim_C7_query_pagination {α : Type} (p : QueryPage α) (rest : List (QueryPage α))
    (hwf : wfChain (p :: rest)) :
    yieldsOf (queryEvents (p :: rest)) = ((p :: rest).map QueryPage.records).flatten ∧
    requestCount (queryEvents (p :: rest)) = (p :: rest).length ∧
    (∀ r rs, p.records = r :: rs →
      query_one (p :: rest) = some r ∧
      requestCount (takeToFirstYield (queryEvents (p :: rest))) = 1) := by
  obtain ⟨h1, h2⟩ := queryEvents_chain (p :: rest) hwf
  refine ⟨h1, h2, ?_⟩
  intro r rs hrec
  constructor
  · unfold query_one
    rw [h1]
    simp [hrec]
  · have key : ∀ es : List (QEvent α),
        requestCount (takeToFirstYield
          (QEvent.request :: (p.records.map QEvent.yield ++ es))) = 1 := by
      intro es
      rw [hrec]
      simp [takeToFirstYield, requestCount]
    exact key _

/-- Witness for C7 at the worked two-page example: 2 records plus 1 record
yield exactly 3 records over 2 requests, and `query_one` stops after the
first record having issued only the first request. -/
theorem claim_C7_witness :
    yieldsOf (queryEvents [pageOne, pageTwo]) = [1, 2, 3] ∧
    requestCount (queryEvents [pageOne, pageTwo]) = 2 ∧
    query_one [pageOne, pageTwo] = some 1 ∧
    requestCount (takeToFirstYield (queryEvents [pageOne, pageTwo])) = 1 := by
  have h := claim_C7_query_pagination pageOne [pageTwo]
    ⟨⟨"/services/data/query/next", rfl⟩, Or.inl rfl⟩
  have h3 := h.2.2 1 [2] rfl
  exact ⟨by rw [h.1]; rfl, h.2.1, h3.1, h3.2⟩

/-- C8 counterexample: the lru cache of `sobject_field_list` is keyed on the
argument exactly as passed, not on the lower-cased sobject name — after a
lookup of "Account", a lookup of "ACCOUNT" (the same sobject, since both
lower-case to "account") misses, performs a second describe GET, and leaves
two differently-cased cache keys. -/
theorem claim_C8_counterexample :
    (sobject_field_list dsrvOneField
        (sobject_field_list dsrvOneField [] "Account").2.1 "ACCOUNT").2.2 =
      [NetEvent.get "sobjects/account/describe/"] ∧
    (sobject_field_list dsrvOneField
        (sobject_field_list dsrvOneField [] "Account").2.1 "ACCOUNT").2.1.map Prod.fst =
      ["ACCOUNT", "Account"] ∧
    pyLower "ACCOUNT" = pyLower "Account" :=
  ⟨rfl, rfl, by decide⟩

/-- C8 amended: under a well-formed cache the keys of `sobject_field_map` are
exactly the lower-cased `name` of the entries of `sobject_field_list`, and an
immediately repeated lookup of the identical name string returns the same
content with no network activity; the cache, however, is keyed by the
argument as passed (`sobject_field_map` lowercases before looking up, but
differently-cased direct lookups occupy separate entries). -/
theorem claim_C8_field_map_and_cache (srv : DescribeServer) (c : FieldCache)
    (name : String) (hwf : cacheWF srv c) :
    (∀ k, k ∈ (sobject_field_map srv c name).1.map Prod.fst ↔
        k ∈ (sobject_field_list srv c name).1.map (fun f => pyLower (fieldName f))) ∧
    (sobject_field_list srv (sobject_field_list srv c name).2.1 name).1 =
      (sobject_field_list srv c name).1 ∧
    (sobject_field_list srv (sobject_field_list srv c name).2.1 name).2.2 = [] := by
  have hv1 : (sobject_field_list srv c name).1 = sortByName (srv.fields (pyLower name)) :=
    sobject_field_list_val srv c name hwf
  have hvlow : (sobject_field_list srv c (pyLower name)).1 =
      sortByName (srv.fields (pyLower name)) := by
    rw [sobject_field_list_val srv c (pyLower name) hwf, pyLower_idem]
  have hs := sobject_field_list_stable srv c name
  refine ⟨?_, ?_, ?_⟩
  · intro k
    unfold sobject_field_map
    rw [mem_keys_pyDictOfPairs]
    simp only [List.map_map]
    rw [hvlow, hv1]
    simp [Function.comp]
  · rw [sobject_field_list_hit srv _ name _ hs]
  · rw [sobject_field_list_hit srv _ name _ hs]

/-- Witness for C8's amended statement on a concrete describe server from the
empty cache. -/
theorem claim_C8_witness :
    ("id" ∈ (sobject_field_map dsrvOneField [] "Account").1.map Prod.fst ↔
      "id" ∈ (sobject_field_list dsrvOneField [] "Account").1.map
        (fun f => pyLower (fieldName f))) ∧
    (sobject_field_list dsrvOneField
        (sobject_field_list dsrvOneField [] "Account").2.1 "Account").2.2 = [] := by
  have h := claim_C8_field_map_and_cache dsrvOneField [] "Account" (fun p hp => nomatch hp)
  exact ⟨h.1 "id", h.2.2⟩

/-- C9: a `fetch_record` whose record GET is answered 404 completes with an
absent result (`None`) rather than an error, and the 404 triggers no
reauthenticate-and-retry cycle — the trace contains no token POST. -/
theorem claim_C9_fetch_404 (dsrv : DescribeServer) (cache : FieldCache) (gsrv : GetServer)
    (auth : AuthOutcome) (su name recid : String) (fl : Option (List String))
    (h404 : ∀ ps, gsrv.status (dataUrl su ("sobjects/" ++ name ++ "/" ++ recid)) ps = 404) :
    (fetch_record dsrv cache gsrv auth su name recid fl).1 = .ok none ∧
    NetEvent.tokenPost ∉ (fetch_record dsrv cache gsrv auth su name recid fl).2 := by
  have hin : ∀ fs : String,
      httpGetInner gsrv su ("sobjects/" ++ name ++ "/" ++ recid) [("fields", fs)] =
        (.ok none, [.get (dataUrl su ("sobjects/" ++ name ++ "/" ++ recid))]) := by
    intro fs
    unfold httpGetInner
    rw [h404]
    rw [if_pos rfl]
  cases fl with
  | some l =>
    have hm : managed auth (fun _ =>
        httpGetInner gsrv su ("sobjects/" ++ name ++ "/" ++ recid)
          [("fields", String.intercalate "," l)]) =
        (.ok none, [.get (dataUrl su ("sobjects/" ++ name ++ "/" ++ recid))], 1) :=
      managed_first_ok auth _ none _ (hin (String.intercalate "," l))
    unfold fetch_record
    simp only [hm]
    exact ⟨trivial, by simp⟩
  | none =>
    have hm : managed auth (fun _ =>
        httpGetInner gsrv su ("sobjects/" ++ name ++ "/" ++ recid)
          [("fields", String.intercalate ","
            ((sobject_field_map dsrv cache name).1.map (fun p => p.1)))]) =
        (.ok none, [.get (dataUrl su ("sobjects/" ++ name ++ "/" ++ recid))], 1) :=
      managed_first_ok auth _ none _ (hin _)
    unfold fetch_record
    simp only [hm]
    refine ⟨trivial, ?_⟩
    intro hmem
    rcases List.mem_append.mp hmem with h | h
    · exact tokenPost_not_mem_flist dsrv cache (pyLower name)
        (by simpa [sobject_field_map] using h)
    · simp at h

/-- Witness for C9: every-URL-404 server, explicit field list. -/
theorem claim_C9_witness :
    (fetch_record dsrvOneField [] gsrvAll404 (Except.ok true) "https://svc" "Contact" "003x"
      (some ["id", "name"])).1 = .ok none ∧
    NetEvent.tokenPost ∉ (fetch_record dsrvOneField [] gsrvAll404 (Except.ok true)
      "https://svc" "Contact" "003x" (some ["id", "name"])).2 :=
  claim_C9_fetch_404 dsrvOneField [] gsrvAll404 (Except.ok true) "https://svc" "Contact"
    "003x" (some ["id", "name"]) (fun _ => rfl)

/-- C10: the record-building loop of `insert_records`/`update_records` only
reads the caller's record dictionaries — every pre-existing heap cell is
unchanged afterwards — and the payload consists exclusively of freshly
allocated dictionaries. -/
theorem claim_C10_inputs_unchanged :
    ∀ (h : Heap) (types : List String) (refs : List Nat),
      (∀ a, a < h.cells.length → (buildRecordsHeap h types refs).1.get a = h.get a) ∧
      (∀ b, b ∈ (buildRecordsHeap h types refs).2 → h.cells.length ≤ b) := by
  intro h types
  induction types generalizing h with
  | nil =>
    intro refs
    exact ⟨fun a _ => rfl, fun b hb => nomatch hb⟩
  | cons t ts ih =>
    intro refs
    cases refs with
    | nil => exact ⟨fun a _ => rfl, fun b hb => nomatch hb⟩
    | cons a rs =>
      have step : buildRecordsHeap h (t :: ts) (a :: rs) =
          (let h1 : Heap := ⟨h.cells ++ [recordWithAttributes t ((h.get a).getD [])]⟩
           ((buildRecordsHeap h1 ts rs).1,
            h.cells.length :: (buildRecordsHeap h1 ts rs).2)) := rfl
      rw [step]
      set h1 : Heap := ⟨h.cells ++ [recordWithAttributes t ((h.get a).getD [])]⟩ with hh1
      obtain ⟨ihget, ihfresh⟩ := ih h1 rs
      constructor
      · intro i hi
        have hi1 : i < h1.cells.length := by
          rw [hh1]
          simp
          omega
        rw [ihget i hi1]
        show h1.cells[i]? = h.cells[i]?
        rw [hh1]
        exact List.getElem?_append_left hi
      · intro b hb
        rcases List.mem_cons.mp hb with hb | hb
        · omega
        · have := ihfresh b hb
          have hlen : h1.cells.length = h.cells.length + 1 := by
            rw [hh1]
            simp
          omega

/-- Witness for C10 on a one-cell heap: the input record cell is untouched and
the payload address is fresh. -/
theorem claim_C10_witness :
    (buildRecordsHeap heapOne ["Account"] [0]).1.get 0 = heapOne.get 0 ∧
    (buildRecordsHeap heapOne ["Account"] [0]).2 = [1] ∧
    heapOne.cells.length ≤ 1 :=
  ⟨(claim_C10_inputs_unchanged heapOne ["Account"] [0]).1 0 (by decide),
   rfl,
   (claim_C10_inputs_unchanged heapOne ["Account"] [0]).2 1 (by decide)⟩

end PySforce
